import Mathlib

/-!
Shallow embedding of the changelog-entry validation core of the
OpenSearch changelog workflow repository.

The embedding covers:
* `isValidChangelogEntry` and `isSkipEntry` from
  `src/utils/validators.utils.js`;
* `handleSkipOption` from the GitHub-utils module (an unnamed source file);
* the entry grammar pattern and the configuration constants, which live in
  `src/config/constants.js` (a file that is not among the sources) and are
  therefore modelled from the spec.

JavaScript strings are modelled as Lean `String` (ASCII inputs, so the
code-unit length used by JavaScript coincides with `String.length`);
a failed regex match followed by destructuring (a TypeError at runtime)
is modelled as the distinguished error `typeErrorNullMatch`; the async
`updateLabel` collaborator of `handleSkipOption` is modelled by recording
the list of add/remove flags it is called with.
-/

namespace ChangelogWorkflow

/-- ASCII whitespace test standing in for the JavaScript whitespace class
used by the grammar pattern and by `String.prototype.trim`. -/
def isWhitespace (c : Char) : Bool :=
  c == ' ' || c == '\t' || c == '\n' || c == '\r'

/-- Characters allowed in the category token of the entry grammar:
anything except whitespace and the colon separator. -/
def isTokenChar (c : Char) : Bool :=
  !isWhitespace c && c != ':'

/-- Model of `String.prototype.toLowerCase` for the ASCII strings handled
by the workflow. -/
def jsToLower (s : String) : String :=
  ⟨s.data.map Char.toLower⟩

/-- Whitespace trimming on a character list: drop leading whitespace, then
drop trailing whitespace. -/
def trimChars (l : List Char) : List Char :=
  ((l.dropWhile isWhitespace).reverse.dropWhile isWhitespace).reverse

/-- Model of `String.prototype.trim`. -/
def jsTrim (s : String) : String :=
  ⟨trimChars s.data⟩

/-- Result of a successful match of a changelog line against the entry
grammar: the captured `marker`, category token and description. `marker`
is `""` when the optional hyphen group did not participate; `log` is `""`
when the description is absent or empty (both are falsy in JavaScript, so
the source code cannot tell them apart). -/
structure ParsedEntry where
  marker : String
  pfx : String
  log : String
deriving DecidableEq, Repr

/-- Modelled from the spec: `ENTRY_FORMATTING_PATTERN_REGEX` is defined in
`src/config/constants.js`, which is not among the sources.  The spec
describes the grammar as, conceptually,
leading optional whitespace, an optional hyphen marker, a category token,
a colon separator, then an optional description (the rest of the line,
which cannot span a line break).  A line that does not fit this shape at
all (no category token, or no colon) does not match, which the source
turns into a TypeError when it destructures the null match result. -/
def matchEntryCore (marker : String) (l1 : List Char) : Option ParsedEntry :=
  let l2 := l1.dropWhile isWhitespace
  let pfxChars := l2.takeWhile isTokenChar
  if pfxChars = [] then none
  else
    let l3 := (l2.drop pfxChars.length).dropWhile isWhitespace
    if l3.head? = some ':' then
      let logChars := l3.tail.dropWhile isWhitespace
      if logChars.any (fun x => x == '\n' || x == '\r') then none
      else some ⟨marker, ⟨pfxChars⟩, ⟨logChars⟩⟩
    else none

/-- Top level of the grammar match: strip leading whitespace, capture the
optional hyphen marker, then hand the remainder to `matchEntryCore`. -/
def matchEntryPattern (line : String) : Option ParsedEntry :=
  let l0 := line.data.dropWhile isWhitespace
  if l0.head? = some '-' then matchEntryCore "-" l0.tail
  else matchEntryCore "" l0

/-- Typed failures thrown by `isValidChangelogEntry`, plus
`typeErrorNullMatch`, the lower-level TypeError raised when the grammar
match fails and the source destructures the null result. -/
inductive ValidationError where
  | typeErrorNullMatch
  | ChangelogEntryMissingHyphenError
  | InvalidPrefixError (pfx : String)
  | InvalidPrefixForManualChangesetCreationError (pfx : String)
  | InvalidAdditionalPrefixWithSkipEntryOptionError
  | EmptyEntryDescriptionError (pfx : String)
  | EntryTooLongError (n : Nat)
deriving DecidableEq, Repr

/-- The value returned by `isValidChangelogEntry`: the captured category
token and the trimmed description, exactly as in
`return { prefix, trimmedLog }`. -/
structure EntryResult where
  pfx : String
  trimmedLog : String
deriving DecidableEq, Repr

/-- Modelled from the spec: the configuration constants of
`src/config/constants.js` are not among the sources.  The spec says the
taxonomy is an externally configured closed set of lowercase category
tokens that must include "skip", and the maximum entry length is a
configured integer constant; both are taken as parameters here. -/
structure Config where
  MAX_ENTRY_LENGTH : Nat
  CHANGELOG_ENTRY_PREFIXES : List String
deriving Repr

/-- Well-formedness of a configuration, as constrained by the spec: every
taxonomy member is a nonempty lowercase token of the entry grammar. -/
def Config.WF (cfg : Config) : Prop :=
  ∀ p ∈ cfg.CHANGELOG_ENTRY_PREFIXES,
    p ≠ "" ∧ jsToLower p = p ∧ ∀ c ∈ p.data, isTokenChar c

/-- Embedding of `isValidChangelogEntry` from
`src/utils/validators.utils.js`, lines 46-78, with the configuration
constants passed explicitly.  The source destructures
`[, marker, prefix, log]` from the match without a null check, computes
`trimmedLog = log ? log.trim() : ""`, then branches on the creation mode
and validates in source order, finally returning `{ prefix, trimmedLog }`. -/
def isValidChangelogEntry (cfg : Config) (changelogEntry : String)
    (totalEntries : Nat) (changesetCreationMode : String) :
    Except ValidationError EntryResult :=
  match matchEntryPattern changelogEntry with
  | none => .error .typeErrorNullMatch
  | some pe =>
    let trimmedLog := if pe.log ≠ "" then jsTrim pe.log else ""
    if changesetCreationMode = "manual" then
      if pe.marker ≠ "-" then
        .error .ChangelogEntryMissingHyphenError
      else if jsToLower pe.pfx ≠ "skip" then
        .error (.InvalidPrefixForManualChangesetCreationError pe.pfx)
      else
        .ok ⟨pe.pfx, trimmedLog⟩
    else
      if pe.marker ≠ "-" then
        .error .ChangelogEntryMissingHyphenError
      else if jsToLower pe.pfx ∉ cfg.CHANGELOG_ENTRY_PREFIXES then
        .error (.InvalidPrefixError pe.pfx)
      else if pe.pfx = "skip" ∧ totalEntries > 1 then
        .error .InvalidAdditionalPrefixWithSkipEntryOptionError
      else if pe.pfx ≠ "skip" ∧ pe.log = "" then
        .error (.EmptyEntryDescriptionError pe.pfx)
      else if trimmedLog.length > cfg.MAX_ENTRY_LENGTH then
        .error (.EntryTooLongError pe.log.length)
      else
        .ok ⟨pe.pfx, trimmedLog⟩

/-- A changeset entry map, modelled as the association list underlying the
JavaScript object (category key, formatted text). -/
abbrev EntryMap := List (String × String)

/-- Model of `Object.keys` on an entry map. -/
def objectKeys (m : EntryMap) : List String := m.map Prod.fst

/-- The error thrown by `handleSkipOption` when "skip" appears together
with other category keys. -/
inductive CategoryWithSkipOptionError where
  | mk
deriving DecidableEq, Repr

/-- Embedding of `handleSkipOption` from the GitHub-utils source file.
The entry map argument is optional because the source guards on its
truthiness.  The async `updateLabel` collaborator is modelled by the
first component: the list of add/remove flags (`true` = add the skip
label, `false` = remove it) passed to it, in call order.  The second
component is the returned boolean or the thrown error. -/
def handleSkipOption (entryMap : Option EntryMap) :
    List Bool × Except CategoryWithSkipOptionError Bool :=
  match entryMap with
  | some m =>
    if "skip" ∈ objectKeys m then
      if 1 < (objectKeys m).length then
        ([], .error .mk)
      else
        ([true], .ok true)
    else
      ([false], .ok false)
  | none => ([false], .ok false)

/-- Embedding of `isSkipEntry` from `src/utils/validators.utils.js`,
lines 86-95: true iff the entry map is truthy and "skip" is among its
keys (the `console.log` call is ignored). -/
def isSkipEntry (entryMap : Option EntryMap) : Bool :=
  match entryMap with
  | some m => decide ("skip" ∈ objectKeys m)
  | none => false

/-- Modelled from the spec: a sample configuration satisfying the
constraints the spec places on the real one (lowercase taxonomy
including "skip", a positive maximum length), used for concrete
evaluations. -/
def sampleConfig : Config := ⟨100, ["feat", "fix", "skip"]⟩

deriving instance DecidableEq for Except


theorem not_ws_of_tokenChar {c : Char} (h : isTokenChar c = true) :
    isWhitespace c = false := by
  unfold isTokenChar at h
  cases hw : isWhitespace c
  · rfl
  · rw [hw] at h
    simp at h

theorem takeWhile_append_stop (p : Char → Bool) (xs : List Char) (y : Char)
    (ys : List Char) (hxs : ∀ x ∈ xs, p x = true) (hy : p y = false) :
    (xs ++ y :: ys).takeWhile p = xs := by
  induction xs with
  | nil => simp [List.takeWhile_cons, hy]
  | cons a l ih =>
    have ha : p a = true := hxs a (List.mem_cons_self a l)
    simp only [List.cons_append, List.takeWhile_cons, ha, if_true]
    rw [ih (fun x hx => hxs x (List.mem_cons_of_mem a hx))]

theorem dropWhile_cons_neg {p : Char → Bool} {a : Char} {l : List Char}
    (h : p a = false) : (a :: l).dropWhile p = a :: l := by
  simp [List.dropWhile_cons, h]

theorem data_ne_nil_of_ne_empty {s : String} (h : s ≠ "") : s.data ≠ [] :=
  fun hd => h (String.ext (hd.trans rfl))

theorem matchEntryCore_token (marker : String) (l1 : List Char) (pfx d : String)
    (h2 : l1.dropWhile isWhitespace = pfx.data ++ ':' :: ' ' :: d.data)
    (hne : pfx.data ≠ []) (htok : ∀ c ∈ pfx.data, isTokenChar c = true)
    (hnl : ∀ c ∈ d.data, c ≠ '\n' ∧ c ≠ '\r') :
    matchEntryCore marker l1 =
      some ⟨marker, pfx, ⟨d.data.dropWhile isWhitespace⟩⟩ := by
  simp only [matchEntryCore, h2]
  have htake : (pfx.data ++ ':' :: ' ' :: d.data).takeWhile isTokenChar = pfx.data :=
    takeWhile_append_stop _ _ _ _ htok rfl
  rw [htake, if_neg hne, List.drop_left, dropWhile_cons_neg (a := ':') rfl]
  simp only [List.head?_cons, List.tail_cons, if_pos]
  have hdw : (' ' :: d.data).dropWhile isWhitespace = d.data.dropWhile isWhitespace := by
    rw [List.dropWhile_cons]
    simp [isWhitespace]
  rw [hdw]
  have hany : (d.data.dropWhile isWhitespace).any (fun x => x == '\n' || x == '\r') = false := by
    rw [List.any_eq_false]
    intro x hx
    have hxd : x ∈ d.data := (List.dropWhile_sublist isWhitespace).subset hx
    obtain ⟨hn, hr⟩ := hnl x hxd
    simp [hn, hr]
  rw [if_neg (by rw [hany]; exact Bool.false_ne_true)]

theorem matchEntryPattern_std (pfx d : String) (hne : pfx ≠ "")
    (htok : ∀ c ∈ pfx.data, isTokenChar c = true)
    (hnl : ∀ c ∈ d.data, c ≠ '\n' ∧ c ≠ '\r') :
    matchEntryPattern ("- " ++ pfx ++ ": " ++ d) =
      some ⟨"-", pfx, ⟨d.data.dropWhile isWhitespace⟩⟩ := by
  have h1 : ("- " : String).data = ['-', ' '] := rfl
  have h2 : (": " : String).data = [':', ' '] := rfl
  have hdata : ("- " ++ pfx ++ ": " ++ d).data =
      '-' :: ' ' :: (pfx.data ++ ':' :: ' ' :: d.data) := by
    simp [String.data_append, h1, h2]
  simp only [matchEntryPattern, hdata]
  rw [dropWhile_cons_neg (a := '-') rfl]
  simp only [List.head?_cons, List.tail_cons, if_pos]
  apply matchEntryCore_token
  · rw [List.dropWhile_cons]
    simp only [show isWhitespace ' ' = true from rfl, if_pos]
    cases hp : pfx.data with
    | nil => exact absurd hp (data_ne_nil_of_ne_empty hne)
    | cons a l =>
      have ha : isWhitespace a = false :=
        not_ws_of_tokenChar (htok a (by rw [hp]; exact List.mem_cons_self a l))
      rw [List.cons_append, dropWhile_cons_neg ha]
  · exact data_ne_nil_of_ne_empty hne
  · exact htok
  · exact hnl

theorem trimChars_dropWhile (l : List Char) :
    trimChars (l.dropWhile isWhitespace) = trimChars l := by
  unfold trimChars
  rw [List.dropWhile_idempotent]

theorem jsTrim_mk_dropWhile (d : String) :
    jsTrim ⟨d.data.dropWhile isWhitespace⟩ = jsTrim d :=
  congrArg String.mk (trimChars_dropWhile d.data)

theorem dropWhile_mk_ne_empty (d : String) (h : jsTrim d ≠ "") :
    (⟨d.data.dropWhile isWhitespace⟩ : String) ≠ "" := by
  intro hc
  apply h
  rw [← jsTrim_mk_dropWhile d, hc]
  rfl

theorem isValid_normal_ok (cfg : Config) (hWF : cfg.WF) (pfx d : String)
    (hmem : pfx ∈ cfg.CHANGELOG_ENTRY_PREFIXES) (hskip : pfx ≠ "skip")
    (total : Nat) (mode : String) (hmode : mode ≠ "manual")
    (hnl : ∀ c ∈ d.data, c ≠ '\n' ∧ c ≠ '\r')
    (hd : jsTrim d ≠ "") (hlen : (jsTrim d).length ≤ cfg.MAX_ENTRY_LENGTH) :
    isValidChangelogEntry cfg ("- " ++ pfx ++ ": " ++ d) total mode =
      .ok ⟨pfx, jsTrim d⟩ := by
  obtain ⟨hne, hlow, htok⟩ := hWF pfx hmem
  have hm := matchEntryPattern_std pfx d hne htok hnl
  simp only [isValidChangelogEntry, hm]
  rw [if_pos (dropWhile_mk_ne_empty d hd), jsTrim_mk_dropWhile d,
    if_neg hmode,
    if_neg (show ¬((ParsedEntry.mk "-" pfx ⟨d.data.dropWhile isWhitespace⟩).marker ≠ "-") from fun hc => hc rfl)]
  rw [if_neg (show ¬(jsToLower (ParsedEntry.mk "-" pfx ⟨d.data.dropWhile isWhitespace⟩).pfx ∉ cfg.CHANGELOG_ENTRY_PREFIXES) from fun hc => hc (by rw [show (ParsedEntry.mk "-" pfx ⟨d.data.dropWhile isWhitespace⟩).pfx = pfx from rfl, hlow]; exact hmem))]
  rw [if_neg (show ¬((ParsedEntry.mk "-" pfx ⟨d.data.dropWhile isWhitespace⟩).pfx = "skip" ∧ total > 1) from fun hc => hskip hc.1)]
  rw [if_neg (show ¬((ParsedEntry.mk "-" pfx ⟨d.data.dropWhile isWhitespace⟩).pfx ≠ "skip" ∧ (ParsedEntry.mk "-" pfx ⟨d.data.dropWhile isWhitespace⟩).log = "") from fun hc => dropWhile_mk_ne_empty d hd hc.2)]
  rw [if_neg (Nat.not_lt.mpr hlen)]

theorem isValid_normal_tooLong (cfg : Config) (hWF : cfg.WF) (pfx d : String)
    (hmem : pfx ∈ cfg.CHANGELOG_ENTRY_PREFIXES) (hskip : pfx ≠ "skip")
    (total : Nat) (mode : String) (hmode : mode ≠ "manual")
    (hnl : ∀ c ∈ d.data, c ≠ '\n' ∧ c ≠ '\r')
    (hlen : cfg.MAX_ENTRY_LENGTH < (jsTrim d).length) :
    isValidChangelogEntry cfg ("- " ++ pfx ++ ": " ++ d) total mode =
      .error (.EntryTooLongError
        (⟨d.data.dropWhile isWhitespace⟩ : String).length) := by
  have hd : jsTrim d ≠ "" := by
    intro hc
    rw [hc] at hlen
    exact Nat.not_lt_zero _ hlen
  obtain ⟨hne, hlow, htok⟩ := hWF pfx hmem
  have hm := matchEntryPattern_std pfx d hne htok hnl
  simp only [isValidChangelogEntry, hm]
  rw [if_pos (dropWhile_mk_ne_empty d hd), jsTrim_mk_dropWhile d,
    if_neg hmode,
    if_neg (show ¬((ParsedEntry.mk "-" pfx ⟨d.data.dropWhile isWhitespace⟩).marker ≠ "-") from fun hc => hc rfl)]
  rw [if_neg (show ¬(jsToLower (ParsedEntry.mk "-" pfx ⟨d.data.dropWhile isWhitespace⟩).pfx ∉ cfg.CHANGELOG_ENTRY_PREFIXES) from fun hc => hc (by rw [show (ParsedEntry.mk "-" pfx ⟨d.data.dropWhile isWhitespace⟩).pfx = pfx from rfl, hlow]; exact hmem))]
  rw [if_neg (show ¬((ParsedEntry.mk "-" pfx ⟨d.data.dropWhile isWhitespace⟩).pfx = "skip" ∧ total > 1) from fun hc => hskip hc.1)]
  rw [if_neg (show ¬((ParsedEntry.mk "-" pfx ⟨d.data.dropWhile isWhitespace⟩).pfx ≠ "skip" ∧ (ParsedEntry.mk "-" pfx ⟨d.data.dropWhile isWhitespace⟩).log = "") from fun hc => dropWhile_mk_ne_empty d hd hc.2)]
  rw [if_pos hlen]

theorem handleSkipOption_some (m : EntryMap) :
    handleSkipOption (some m) =
      if "skip" ∈ objectKeys m then
        if 1 < (objectKeys m).length then ([], .error .mk)
        else ([true], .ok true)
      else ([false], .ok false) := rfl

theorem one_lt_length_of_two_mem {l : List String} {a b : String}
    (ha : a ∈ l) (hb : b ∈ l) (hne : a ≠ b) : 1 < l.length := by
  cases l with
  | nil => cases ha
  | cons x xs =>
    cases xs with
    | nil =>
      simp only [List.mem_singleton] at ha hb
      exact absurd (ha.trans hb.symm) hne
    | cons y ys =>
      simp only [List.length_cons]
      omega

/-- Claim C2: `handleSkipOption` returns true iff "skip" is a key of the
entry map and it is the only key; it throws `CategoryWithSkipOptionError`
when "skip" appears together with at least one other key; and it returns
false when "skip" is not a key. -/
theorem c2_handleSkipOption_resolveSkip (m : EntryMap) :
    ((handleSkipOption (some m)).2 = .ok true ↔
      "skip" ∈ objectKeys m ∧ (objectKeys m).length = 1)
    ∧ (("skip" ∈ objectKeys m ∧ ∃ k ∈ objectKeys m, k ≠ "skip") →
      (handleSkipOption (some m)).2 = .error .mk)
    ∧ ("skip" ∉ objectKeys m → (handleSkipOption (some m)).2 = .ok false) := by
  refine ⟨?_, ?_, ?_⟩
  · rw [handleSkipOption_some]
    by_cases h1 : "skip" ∈ objectKeys m
    · by_cases h2 : 1 < (objectKeys m).length
      · rw [if_pos h1, if_pos h2]
        constructor
        · intro h
          exact Except.noConfusion h
        · rintro ⟨_, hlen⟩
          omega
      · rw [if_pos h1, if_neg h2]
        constructor
        · intro _
          refine ⟨h1, ?_⟩
          have hp : 0 < (objectKeys m).length :=
            List.length_pos.mpr (List.ne_nil_of_mem h1)
          omega
        · intro _
          rfl
    · rw [if_neg h1]
      constructor
      · intro h
        have h' : (false : Bool) = true := Except.ok.inj h
        exact Bool.noConfusion h'
      · rintro ⟨hc, _⟩
        exact absurd hc h1
  · rintro ⟨h1, k, hk, hne⟩
    rw [handleSkipOption_some, if_pos h1,
      if_pos (one_lt_length_of_two_mem hk h1 hne)]
  · intro h1
    rw [handleSkipOption_some, if_neg h1]

theorem c2_handleSkipOption_resolveSkip_witness :
    (handleSkipOption (some [("skip", "a"), ("feat", "b")])).2 = .error .mk ∧
    (handleSkipOption (some [("skip", "a")])).2 = .ok true ∧
    (handleSkipOption (some [("feat", "b")])).2 = .ok false :=
  ⟨(c2_handleSkipOption_resolveSkip [("skip", "a"), ("feat", "b")]).2.1
      ⟨by decide, "feat", by decide, by decide⟩,
   (c2_handleSkipOption_resolveSkip [("skip", "a")]).1.mpr ⟨by decide, by decide⟩,
   (c2_handleSkipOption_resolveSkip [("feat", "b")]).2.2 (by decide)⟩

/-- Claim C9 (implicit): when the entry map contains "skip" together with
at least one other key, `handleSkipOption` throws
`CategoryWithSkipOptionError` without a single call to the `updateLabel`
collaborator, so no label is added to or removed from the pull request on
this error path. -/
theorem c9_skip_conflict_no_label_update (m : EntryMap)
    (h1 : "skip" ∈ objectKeys m) (k : String) (hk : k ∈ objectKeys m)
    (hne : k ≠ "skip") :
    handleSkipOption (some m) = ([], .error .mk) := by
  rw [handleSkipOption_some, if_pos h1,
    if_pos (one_lt_length_of_two_mem hk h1 hne)]

theorem c9_skip_conflict_no_label_update_witness :
    handleSkipOption (some [("skip", "a"), ("feat", "b")]) = ([], .error .mk) :=
  c9_skip_conflict_no_label_update [("skip", "a"), ("feat", "b")]
    (by decide) "feat" (by decide) (by decide)

/-- Claim C10 (implicit): `isSkipEntry` returns true iff the entry map is
truthy and "skip" is among its keys; in particular it performs no
skip-exclusivity check and raises no error (its result type is a plain
boolean). -/
theorem c10_isSkipEntry_iff (em : Option EntryMap) :
    isSkipEntry em = true ↔ ∃ m, em = some m ∧ "skip" ∈ objectKeys m := by
  cases em with
  | none => simp [isSkipEntry]
  | some m => simp [isSkipEntry]

theorem c10_isSkipEntry_iff_witness :
    isSkipEntry (some [("skip", "a"), ("feat", "b")]) = true :=
  (c10_isSkipEntry_iff (some [("skip", "a"), ("feat", "b")])).mpr
    ⟨[("skip", "a"), ("feat", "b")], rfl, by decide⟩

/-- Claim C1 (evaluation at the failing input): on the line
"- skip: ignored text" the source returns the trimmed description text,
not the empty string, in both creation modes, although its own doc
comment says a "skip" entry immediately yields an empty string. -/
theorem c1_skip_description_preserved :
    isValidChangelogEntry sampleConfig "- skip: ignored text" 1 "normal" =
      .ok ⟨"skip", "ignored text"⟩ ∧
    isValidChangelogEntry sampleConfig "- skip: ignored text" 1 "manual" =
      .ok ⟨"skip", "ignored text"⟩ := ⟨rfl, rfl⟩

/-- Claim C4: a line that does not match the entry grammar at all (here it
has no colon separator) makes `isValidChangelogEntry` fail with the
lower-level TypeError of destructuring a null match, not with any of the
typed validation errors. -/
theorem c4_unmatched_line_lower_level_failure :
    matchEntryPattern "completely unrelated text" = none ∧
    isValidChangelogEntry sampleConfig "completely unrelated text" 1 "normal" =
      .error .typeErrorNullMatch := ⟨rfl, rfl⟩

/-- Claim C6 (counterexample): on "- feat: add dark mode" with one entry
in normal mode, `isValidChangelogEntry` does not return the capitalized
description "Add dark mode". -/
theorem c6_capitalization_counterexample :
    isValidChangelogEntry sampleConfig "- feat: add dark mode" 1 "normal" ≠
      .ok ⟨"feat", "Add dark mode"⟩ := by decide

/-- Claim C6 (amended): on "- feat: add dark mode" with one entry in
normal mode, `isValidChangelogEntry` returns the trimmed description
unchanged: {prefix: "feat", trimmedDescription: "add dark mode"};
capitalization does not happen in this function. -/
theorem c6_scenario_a_amended :
    isValidChangelogEntry sampleConfig "- feat: add dark mode" 1 "normal" =
      .ok ⟨"feat", "add dark mode"⟩ := rfl

/-- Claim C8 (counterexample): the line "- feat: hello" written with a
capital letter, "- Feat: hello", validates in normal mode because only
the lower-cased token is checked against the taxonomy, yet the returned
prefix is the raw "Feat", which is neither exactly "skip" nor a member of
the configured lowercase taxonomy. -/
theorem c8_raw_prefix_counterexample :
    isValidChangelogEntry sampleConfig "- Feat: hello" 1 "normal" =
      .ok ⟨"Feat", "hello"⟩ ∧
    "Feat" ∉ sampleConfig.CHANGELOG_ENTRY_PREFIXES ∧
    ("Feat" : String) ≠ "skip" := ⟨rfl, by decide, by decide⟩

/-- Claim C3: in manual creation mode, `isValidChangelogEntry` succeeds
only when the captured prefix lower-cases to "skip"; on every line whose
marker is "-" but whose prefix does not lower-case to "skip" (a valid
taxonomy member or not, since the taxonomy is never consulted in this
mode) it fails with `InvalidPrefixForManualChangesetCreationError`. -/
theorem c3_manual_mode_only_skip (cfg : Config) (line : String) (total : Nat) :
    (∀ r, isValidChangelogEntry cfg line total "manual" = .ok r →
      jsToLower r.pfx = "skip")
    ∧ (∀ pe, matchEntryPattern line = some pe → pe.marker = "-" →
      jsToLower pe.pfx ≠ "skip" →
      isValidChangelogEntry cfg line total "manual" =
        .error (.InvalidPrefixForManualChangesetCreationError pe.pfx)) := by
  constructor
  · intro r h
    cases hm : matchEntryPattern line with
    | none =>
      simp only [isValidChangelogEntry, hm] at h
      exact Except.noConfusion h
    | some pe =>
      simp only [isValidChangelogEntry, hm] at h
      rw [if_pos trivial] at h
      by_cases h2 : pe.marker ≠ "-"
      · rw [if_pos h2] at h
        exact Except.noConfusion h
      · rw [if_neg h2] at h
        by_cases h3 : jsToLower pe.pfx ≠ "skip"
        · rw [if_pos h3] at h
          exact Except.noConfusion h
        · rw [if_neg h3] at h
          have hr := Except.ok.inj h
          rw [← hr]
          exact not_not.mp h3
  · intro pe hm hmark h3
    simp only [isValidChangelogEntry, hm]
    rw [if_pos trivial, if_neg (show ¬(pe.marker ≠ "-") from fun hc => hc hmark),
      if_pos h3]

theorem c3_manual_mode_only_skip_witness :
    isValidChangelogEntry sampleConfig "- feat: x" 1 "manual" =
      .error (.InvalidPrefixForManualChangesetCreationError "feat") :=
  (c3_manual_mode_only_skip sampleConfig "- feat: x" 1).2
    ⟨"-", "feat", "x"⟩ rfl rfl (by decide)

/-- Claim C5: every line "- prefix: description" whose prefix belongs to
the configured taxonomy and is not "skip", and whose trimmed description
is nonempty and at most MAX_ENTRY_LENGTH characters long, validates in
normal mode to exactly {prefix, trimmedDescription: description.trim()}. -/
theorem c5_valid_normal_entry (cfg : Config) (hWF : cfg.WF) (pfx d : String)
    (hmem : pfx ∈ cfg.CHANGELOG_ENTRY_PREFIXES) (hskip : pfx ≠ "skip")
    (total : Nat)
    (hnl : ∀ c ∈ d.data, c ≠ '\n' ∧ c ≠ '\r')
    (hd : jsTrim d ≠ "")
    (hlen : (jsTrim d).length ≤ cfg.MAX_ENTRY_LENGTH) :
    isValidChangelogEntry cfg ("- " ++ pfx ++ ": " ++ d) total "normal" =
      .ok ⟨pfx, jsTrim d⟩ :=
  isValid_normal_ok cfg hWF pfx d hmem hskip total "normal" (by decide)
    hnl hd hlen

theorem c5_valid_normal_entry_witness :
    isValidChangelogEntry sampleConfig "- feat: hello world" 1 "normal" =
      .ok ⟨"feat", "hello world"⟩ :=
  c5_valid_normal_entry sampleConfig (by unfold Config.WF; decide) "feat" "hello world"
    (by decide) (by decide) 1 (by decide) (by decide) (by decide)

/-- Claim C7: for a non-skip taxonomy prefix in normal mode, a description
whose trimmed length is exactly MAX_ENTRY_LENGTH validates successfully,
and one whose trimmed length is MAX_ENTRY_LENGTH + 1 fails with
`EntryTooLongError`. -/
theorem c7_max_length_boundary (cfg : Config) (hWF : cfg.WF) (pfx : String)
    (hmem : pfx ∈ cfg.CHANGELOG_ENTRY_PREFIXES) (hskip : pfx ≠ "skip")
    (total : Nat) (dExact dOver : String)
    (hnlE : ∀ c ∈ dExact.data, c ≠ '\n' ∧ c ≠ '\r')
    (hnlO : ∀ c ∈ dOver.data, c ≠ '\n' ∧ c ≠ '\r')
    (hpos : 0 < cfg.MAX_ENTRY_LENGTH)
    (hE : (jsTrim dExact).length = cfg.MAX_ENTRY_LENGTH)
    (hO : (jsTrim dOver).length = cfg.MAX_ENTRY_LENGTH + 1) :
    (∃ r, isValidChangelogEntry cfg ("- " ++ pfx ++ ": " ++ dExact) total
      "normal" = .ok r)
    ∧ (∃ n, isValidChangelogEntry cfg ("- " ++ pfx ++ ": " ++ dOver) total
      "normal" = .error (.EntryTooLongError n)) := by
  constructor
  · refine ⟨⟨pfx, jsTrim dExact⟩, ?_⟩
    apply isValid_normal_ok cfg hWF pfx dExact hmem hskip total "normal"
      (by decide) hnlE
    · intro hc
      rw [hc] at hE
      rw [show ("" : String).length = 0 from rfl] at hE
      omega
    · omega
  · exact ⟨_, isValid_normal_tooLong cfg hWF pfx dOver hmem hskip total
      "normal" (by decide) hnlO (by omega)⟩

theorem c7_max_length_boundary_witness :
    (∃ r, isValidChangelogEntry ⟨3, ["feat", "fix", "skip"]⟩ "- feat: abc" 1
      "normal" = .ok r)
    ∧ (∃ n, isValidChangelogEntry ⟨3, ["feat", "fix", "skip"]⟩ "- feat: abcd" 1
      "normal" = .error (.EntryTooLongError n)) :=
  c7_max_length_boundary ⟨3, ["feat", "fix", "skip"]⟩ (by unfold Config.WF; decide) "feat"
    (by decide) (by decide) 1 "abc" "abcd" (by decide) (by decide)
    (by decide) (by decide) (by decide)

/-- Claim C8 (amended): on every success of `isValidChangelogEntry`, in
either mode, the lower-casing of the returned prefix is "skip" or a
member of the configured taxonomy; the raw prefix itself may differ in
case from both (see the counterexample). -/
theorem c8_prefix_taxonomy_amended (cfg : Config) (line : String)
    (total : Nat) (mode : String) (r : EntryResult)
    (h : isValidChangelogEntry cfg line total mode = .ok r) :
    jsToLower r.pfx = "skip" ∨
      jsToLower r.pfx ∈ cfg.CHANGELOG_ENTRY_PREFIXES := by
  cases hm : matchEntryPattern line with
  | none =>
    simp only [isValidChangelogEntry, hm] at h
    exact Except.noConfusion h
  | some pe =>
    simp only [isValidChangelogEntry, hm] at h
    by_cases h1 : mode = "manual"
    · rw [if_pos h1] at h
      by_cases h2 : pe.marker ≠ "-"
      · rw [if_pos h2] at h
        exact Except.noConfusion h
      · rw [if_neg h2] at h
        by_cases h3 : jsToLower pe.pfx ≠ "skip"
        · rw [if_pos h3] at h
          exact Except.noConfusion h
        · rw [if_neg h3] at h
          have hr := Except.ok.inj h
          rw [← hr]
          exact Or.inl (not_not.mp h3)
    · rw [if_neg h1] at h
      by_cases h2 : pe.marker ≠ "-"
      · rw [if_pos h2] at h
        exact Except.noConfusion h
      · rw [if_neg h2] at h
        by_cases h3 : jsToLower pe.pfx ∉ cfg.CHANGELOG_ENTRY_PREFIXES
        · rw [if_pos h3] at h
          exact Except.noConfusion h
        · rw [if_neg h3] at h
          by_cases h4 : pe.pfx = "skip" ∧ total > 1
          · rw [if_pos h4] at h
            exact Except.noConfusion h
          · rw [if_neg h4] at h
            by_cases h5 : pe.pfx ≠ "skip" ∧ pe.log = ""
            · rw [if_pos h5] at h
              exact Except.noConfusion h
            · rw [if_neg h5] at h
              by_cases h6 : (if pe.log ≠ "" then jsTrim pe.log else "").length >
                  cfg.MAX_ENTRY_LENGTH
              · rw [if_pos h6] at h
                exact Except.noConfusion h
              · rw [if_neg h6] at h
                have hr := Except.ok.inj h
                rw [← hr]
                exact Or.inr (not_not.mp h3)

theorem c8_prefix_taxonomy_amended_witness :
    jsToLower (EntryResult.pfx ⟨"Feat", "hello"⟩) = "skip" ∨
      jsToLower (EntryResult.pfx ⟨"Feat", "hello"⟩) ∈
        sampleConfig.CHANGELOG_ENTRY_PREFIXES :=
  c8_prefix_taxonomy_amended sampleConfig "- Feat: hello" 1 "normal"
    ⟨"Feat", "hello"⟩ rfl
